import Mathlib

/-!
Verification of the Instagram scraping / image-analysis pipeline
(`insta scrapper with ai analysis.py`).

The development shallowly embeds the script's pure logic:
decimal rendering of indices (Python `str(i)` inside f-strings),
`urllib.parse.urlparse(...).path`, `os.path.splitext`,
`get_file_extension`, the post-decomposition loop of
`scrape_and_analyze`, `download_media`, `analyze_images`, and the
orchestration of `scrape_and_analyze` itself.  External collaborators
(the scraping actor, the HTTP layer, the filesystem, the vision
service) are passed in as explicit oracles, mirroring the points where
the script calls out.
-/

namespace InstaScraper

/-! Decimal rendering of a natural number, Python `str(i)`. -/

/-- The character for a single decimal digit `d < 10`. -/
def digitChar (d : Nat) : Char := Char.ofNat (48 + d)

/-- Fuel-driven decimal digit list of `n`, most significant digit first.
With fuel `> n` this is exactly Python's `str(n)`. -/
def natDigitsAux : Nat → Nat → List Char
  | 0, _ => []
  | fuel + 1, n =>
    if n < 10 then [digitChar n]
    else natDigitsAux fuel (n / 10) ++ [digitChar (n % 10)]

/-- Decimal digit list of `n` (the characters of Python `str(n)`). -/
def natStrData (n : Nat) : List Char := natDigitsAux (n + 1) n

/-- Python `str(n)` for a natural number. -/
def natStr (n : Nat) : String := ⟨natStrData n⟩

/-- Numeric value of a decimal digit character. -/
def digitVal (c : Char) : Nat := c.toNat - 48

/-- Value of a most-significant-first decimal digit string. -/
def strVal (l : List Char) : Nat := l.foldl (fun a c => 10 * a + digitVal c) 0

/-! Model of `urllib.parse.urlparse(url).path`. -/

/-- Split a character list at the first occurrence of `ch`
(Python `s.split(ch, 1)` when `ch` occurs). -/
def splitFirst (ch : Char) : List Char → Option (List Char × List Char)
  | [] => none
  | c :: t =>
    if c = ch then some ([], t)
    else
      match splitFirst ch t with
      | some (a, b) => some (c :: a, b)
      | none => none

/-- Characters Python's `urllib.parse` allows in a URL scheme. -/
def isSchemeChar (c : Char) : Bool :=
  c.isAlpha || c.isDigit || c == '+' || c == '-' || c == '.'

/-- Strip a leading `scheme:` as `urlsplit` does: the part before the
first colon must be nonempty, start with a letter and consist of scheme
characters. -/
def dropScheme (url : List Char) : List Char :=
  match splitFirst ':' url with
  | none => url
  | some (before, after) =>
    match before with
    | [] => url
    | c :: _ => if c.isAlpha && before.all isSchemeChar then after else url

/-- Strip a leading `//netloc` as `urlsplit` does: after `//`, the
netloc extends to the first `/`, `?` or `#`. -/
def dropNetloc (url : List Char) : List Char :=
  match url with
  | '/' :: '/' :: rest =>
    rest.dropWhile (fun c => c ≠ '/' && c ≠ '?' && c ≠ '#')
  | _ => url

/-- Strip the fragment (`url.split('#', 1)[0]`). -/
def dropFragment (url : List Char) : List Char :=
  match splitFirst '#' url with
  | none => url
  | some (before, _) => before

/-- Strip the query (`url.split('?', 1)[0]`). -/
def dropQuery (url : List Char) : List Char :=
  match splitFirst '?' url with
  | none => url
  | some (before, _) => before

/-- Strip `;params` from the last path segment, as `urlparse`'s
`_splitparams` does. -/
def dropParams (url : List Char) : List Char :=
  if url.contains '/' then
    let lastSeg := (url.reverse.takeWhile (fun c => c ≠ '/')).reverse
    let stem := url.take (url.length - lastSeg.length)
    match splitFirst ';' lastSeg with
    | none => url
    | some (before, _) => stem ++ before
  else
    match splitFirst ';' url with
    | none => url
    | some (before, _) => before

/-- The `path` component of `urllib.parse.urlparse(url)`. -/
def urlparsePath (url : List Char) : List Char :=
  dropParams (dropQuery (dropFragment (dropNetloc (dropScheme url))))

/-! Model of `os.path.splitext` and `get_file_extension`. -/

/-- The suffix of `l` starting at its last `'.'`, if `l` has a dot. -/
def lastDotSuffix : List Char → Option (List Char)
  | [] => none
  | c :: t =>
    match lastDotSuffix t with
    | some s => some s
    | none => if c = '.' then some (c :: t) else none

/-- The part of a POSIX path after its last `/`. -/
def basename (p : List Char) : List Char :=
  (p.reverse.takeWhile (fun c => c ≠ '/')).reverse

/-- Model of `os.path.splitext(p)[1]` (POSIX): the extension of the basename,
where leading dots of the basename never start an extension. -/
def splitextExt (p : List Char) : List Char :=
  match lastDotSuffix ((basename p).dropWhile (fun c => c = '.')) with
  | some s => s
  | none => []

/-- Source function `get_file_extension` (lines 52-56):
`os.path.splitext(urlparse(url).path)[1].lower() or '.jpg'`. -/
def get_file_extension (url : String) : String :=
  let ext := (splitextExt (urlparsePath url.data)).map Char.toLower
  if ext.isEmpty then ".jpg" else ⟨ext⟩

/-! Data model of the pipeline (spec section 3, read off the source). -/

/-- Kind of a media item: still image or video. -/
inductive MediaKind where
  | image
  | video
  deriving DecidableEq

/-- One element of a carousel (`sidecarItems` entry): optional video and
display URLs.  Absent JSON keys and non-string values are modelled as
`none`. -/
structure SidecarItem where
  videoUrl : Option String
  displayUrl : Option String
  deriving DecidableEq

/-- A raw post descriptor from the scraping dataset: optional `videoUrl`
and `displayUrl`, and the (possibly empty) list of carousel items. -/
structure PostDescriptor where
  videoUrl : Option String
  displayUrl : Option String
  sidecarItems : List SidecarItem
  deriving DecidableEq

/-- Python truthiness of `post.get(key)` for a string-valued field: the
key is present and the string nonempty. -/
def truthy : Option String → Bool
  | some s => !s.isEmpty
  | none => false

/-- A resolved unit of work produced by post decomposition. -/
structure MediaItem where
  kind : MediaKind
  url : String
  carouselIndex : Option Nat
  deriving DecidableEq

/-! Post decomposition (source lines 177-205). -/

/-- Top-level media of one post, source lines 177-190: the video branch
`if post.get('videoUrl')`, then the image branch
`if post.get('displayUrl') and not post.get('videoUrl')`. -/
def decomposeTop (p : PostDescriptor) : List MediaItem :=
  (if truthy p.videoUrl then [⟨.video, p.videoUrl.getD "", none⟩] else []) ++
    (if truthy p.displayUrl && !truthy p.videoUrl then
      [⟨.image, p.displayUrl.getD "", none⟩]
    else [])

/-- Media of the carousel item with 1-based index `j`, source lines
195-205: `if item.get('displayUrl') and not item.get('videoUrl')` emits
an image, `elif item.get('videoUrl')` emits a video. -/
def decomposeItem (j : Nat) (it : SidecarItem) : List MediaItem :=
  if truthy it.displayUrl && !truthy it.videoUrl then
    [⟨.image, it.displayUrl.getD "", some j⟩]
  else if truthy it.videoUrl then
    [⟨.video, it.videoUrl.getD "", some j⟩]
  else []

/-- Iteration over `sidecarItems` with `enumerate(..., 1)`. -/
def decomposeCarousel (j : Nat) : List SidecarItem → List MediaItem
  | [] => []
  | it :: rest => decomposeItem j it ++ decomposeCarousel (j + 1) rest

/-- All media of one post, in the order the source attempts them. -/
def decompose (p : PostDescriptor) : List MediaItem :=
  decomposeTop p ++ decomposeCarousel 1 p.sidecarItems

/-! Path planner (directory layout and f-strings of lines 59-68 and
179-203). -/

/-- Subdirectory per media kind. -/
def mediaDir : MediaKind → List Char
  | .image => "images".data
  | .video => "videos".data

/-- Suffix naming a carousel position, empty for top-level media. -/
def carouselTag : Option Nat → List Char
  | none => []
  | some j => "_carousel_".data ++ natStrData j

/-- Characters of the destination path for a media item:
`instagram_downloads/{username}/{kind}/post_{i}[_carousel_{j}]{ext}`. -/
def planPathData (username : String) (kind : MediaKind) (i : Nat)
    (j : Option Nat) (ext : String) : List Char :=
  "instagram_downloads/".data ++ username.data ++ "/".data ++ mediaDir kind ++
    "/post_".data ++ natStrData i ++ carouselTag j ++ ext.data

/-- Destination path for a media item, as a string. -/
def planPath (username : String) (kind : MediaKind) (i : Nat)
    (j : Option Nat) (ext : String) : String :=
  ⟨planPathData username kind i j ext⟩

/-- Destination path the source computes for a decomposed media item of
post `i` (extension from its URL). -/
def itemPath (username : String) (i : Nat) (m : MediaItem) : String :=
  planPath username m.kind i m.carouselIndex (get_file_extension m.url)

/-! Media fetcher, source `download_media` (lines 28-49). -/

/-- Outcome of `requests.get`: a response with status and body bytes, or
a raised network error. -/
inductive NetResponse where
  | response (status : Nat) (body : List Nat)
  | netError (msg : String)

/-- The external world `download_media` touches: the network and the
file writer (which may raise an I/O error). -/
structure FetchWorld where
  net : String → NetResponse
  write : String → List Nat → Except String Unit

/-- Whether `response.raise_for_status()` raises: client errors
400-499 and server errors 500-599. -/
def statusRaises (status : Nat) : Bool :=
  (400 ≤ status && status < 500) || (500 ≤ status && status < 600)

/-- Source `download_media`: try to fetch and write; any raised error is
caught and turned into `false` by the `except` clause. -/
def download_media (w : FetchWorld) (url savePath : String) : Bool :=
  match w.net url with
  | .netError _ => false
  | .response status body =>
    if statusRaises status then false
    else
      match w.write savePath body with
      | .error _ => false
      | .ok _ => true

/-! Image annotator, source `analyze_images` (lines 70-132). -/

/-- Ordinal likelihood enumeration of the vision service. -/
inductive Likelihood where
  | unknown
  | veryUnlikely
  | unlikely
  | possible
  | likely
  | veryLikely
  deriving DecidableEq

/-- The `.name` string of a likelihood value. -/
def Likelihood.name : Likelihood → String
  | .unknown => "UNKNOWN"
  | .veryUnlikely => "VERY_UNLIKELY"
  | .unlikely => "UNLIKELY"
  | .possible => "POSSIBLE"
  | .likely => "LIKELY"
  | .veryLikely => "VERY_LIKELY"

/-- Numeric scores of the vision service.  The source only copies these
values, never computes with them, so they are carried opaquely as
rationals. -/
abbrev Score := Rat

/-- A raw face annotation from the vision service. -/
structure RawFace where
  joyLikelihood : Likelihood
  sorrowLikelihood : Likelihood
  angerLikelihood : Likelihood
  surpriseLikelihood : Likelihood
  detectionConfidence : Score
  deriving DecidableEq

/-- A raw label annotation from the vision service. -/
structure RawLabel where
  description : String
  score : Score
  deriving DecidableEq

/-- A raw safe-search annotation; the source projects only three of its
categories. -/
structure RawSafeSearch where
  adult : Likelihood
  spoof : Likelihood
  medical : Likelihood
  violence : Likelihood
  racy : Likelihood
  deriving DecidableEq

/-- Combined result of the three vision calls for one image. -/
structure RawAnnotations where
  faceAnnotations : List RawFace
  labelAnnotations : List RawLabel
  safeSearchResult : RawSafeSearch
  deriving DecidableEq

/-- Projected per-face data stored in an analysis record. -/
structure FaceData where
  joy : String
  sorrow : String
  anger : String
  surprise : String
  confidence : Score
  deriving DecidableEq

/-- Projected per-label data stored in an analysis record. -/
structure LabelData where
  description : String
  score : Score
  deriving DecidableEq

/-- Projected safe-search data stored in an analysis record. -/
structure SafeSearchData where
  adult : String
  violence : String
  racy : String
  deriving DecidableEq

/-- One entry of `analysis_results.json`: the success payload built at
lines 93-125, or the `{'image_path': ..., 'error': ...}` record of line
130. -/
inductive AnnotationRecord where
  | success (imagePath : String) (faces : List FaceData)
      (labels : List LabelData) (safeSearch : SafeSearchData)
  | error (imagePath : String) (errMsg : String)
  deriving DecidableEq

/-- The `image_path` field every record carries. -/
def AnnotationRecord.imagePath : AnnotationRecord → String
  | .success p _ _ _ => p
  | .error p _ => p

/-- Projection of a raw face (lines 101-109). -/
def projFace (f : RawFace) : FaceData :=
  ⟨f.joyLikelihood.name, f.sorrowLikelihood.name, f.angerLikelihood.name,
    f.surpriseLikelihood.name, f.detectionConfidence⟩

/-- Projection of a raw label (lines 112-115). -/
def projLabel (l : RawLabel) : LabelData :=
  ⟨l.description, l.score⟩

/-- Projection of a raw safe-search annotation (lines 118-123). -/
def projSafeSearch (s : RawSafeSearch) : SafeSearchData :=
  ⟨s.adult.name, s.violence.name, s.racy.name⟩

/-- Body of the per-image loop of `analyze_images`: the vision oracle
covers the file read and the three service calls, any of which may
raise; the `except` clause yields the error record. -/
def analyzeOne (vision : String → Except String RawAnnotations)
    (p : String) : AnnotationRecord :=
  match vision p with
  | .error e => .error p e
  | .ok raw =>
    .success p (raw.faceAnnotations.map projFace)
      (raw.labelAnnotations.map projLabel)
      (projSafeSearch raw.safeSearchResult)

/-- Source `analyze_images` (lines 70-132): loop over the image paths
accumulating one record each. -/
def analyze_images (vision : String → Except String RawAnnotations) :
    List String → List AnnotationRecord
  | [] => []
  | p :: rest => analyzeOne vision p :: analyze_images vision rest

/-! Pipeline orchestrator, source `scrape_and_analyze` (lines 134-230). -/

/-- A download the orchestrator attempts: media kind, source URL and
destination path. -/
structure Attempt where
  kind : MediaKind
  url : String
  savePath : String
  deriving DecidableEq

/-- A file produced by a successful fetch. -/
structure StoredFile where
  path : String
  kind : MediaKind
  deriving DecidableEq

/-- The downloads post `i` gives rise to, in source order. -/
def postAttempts (username : String) (i : Nat) (p : PostDescriptor) :
    List Attempt :=
  (decompose p).map (fun m => ⟨m.kind, m.url, itemPath username i m⟩)

/-- Accumulated effects of the post-processing loop: downloads
attempted, files stored, and the `downloaded_images` list. -/
structure LoopState where
  attempts : List Attempt
  stored : List StoredFile
  images : List String
  deriving DecidableEq

/-- Effects of processing one post.  `raisesAfter = some k` models an
exception thrown inside the per-post `try` after `k` media attempts
(lines 176-209); the `except` clause swallows it, so only the remaining
attempts of this post are lost.  A successful download stores a file;
successful image downloads are also appended to `downloaded_images`
(lines 190 and 200) while video downloads never are. -/
def processPost (dl : String → String → Bool) (raisesAfter : Option Nat)
    (username : String) (i : Nat) (p : PostDescriptor) : LoopState :=
  let atts :=
    match raisesAfter with
    | none => postAttempts username i p
    | some k => (postAttempts username i p).take k
  { attempts := atts,
    stored := (atts.filter (fun a => dl a.url a.savePath)).map
      (fun a => ⟨a.savePath, a.kind⟩),
    images := (atts.filter
        (fun a => a.kind == MediaKind.image && dl a.url a.savePath)).map
      (fun a => a.savePath) }

/-- The `for i, post in enumerate(posts, 1)` loop (lines 175-209). -/
def processPosts (dl : String → String → Bool)
    (raisesAfter : Nat → Option Nat) (username : String) :
    Nat → List PostDescriptor → LoopState
  | _, [] => ⟨[], [], []⟩
  | i, p :: rest =>
    let s1 := processPost dl (raisesAfter i) username i p
    let s2 := processPosts dl raisesAfter username (i + 1) rest
    ⟨s1.attempts ++ s2.attempts, s1.stored ++ s2.stored,
      s1.images ++ s2.images⟩

/-- The external collaborators of `scrape_and_analyze`: the actor call
(returning a dataset id or raising), the dataset retrieval (HTTP get,
`raise_for_status` and JSON parse, any of which may raise), the
download outcome per (url, path), the abstract per-post exception
point, and the vision service. -/
structure Collaborators where
  actorCall : Except String String
  datasetFetch : String → Except String (List PostDescriptor)
  download : String → String → Bool
  postRaisesAfter : Nat → Option Nat
  vision : String → Except String RawAnnotations

/-- The dictionary `scrape_and_analyze` returns (lines 219-226 on
success, line 230 on a caught unrecoverable failure). -/
inductive RunSummary where
  | success (baseDirectory : String) (postsProcessed : Nat)
      (imagesAnalyzed : Nat) (metadataPath : String) (analysisPath : String)
  | error (msg : String)
  deriving DecidableEq

/-- Result of a run: the returned summary plus the externally visible
effects (metadata written, files stored, the annotation input handed to
`analyze_images`, and the persisted `analysis_results.json` content). -/
structure RunResult where
  summary : RunSummary
  metadataWritten : Bool
  storedFiles : List StoredFile
  annotationInput : List String
  analysisSaved : Option (List AnnotationRecord)
  deriving DecidableEq

/-- Source `scrape_and_analyze` (lines 157-230): run the actor, fetch
the dataset, write metadata, process all posts, analyze the collected
images, persist and summarize.  A failure of the actor call or the
dataset retrieval is caught by the outer `except` and reported as an
error summary. -/
def scrape_and_analyze (c : Collaborators) (username : String) : RunResult :=
  let base := "instagram_downloads/" ++ username
  match c.actorCall with
  | .error e => ⟨.error e, false, [], [], none⟩
  | .ok datasetId =>
    match c.datasetFetch datasetId with
    | .error e => ⟨.error e, false, [], [], none⟩
    | .ok posts =>
      let st := processPosts c.download c.postRaisesAfter username 1 posts
      let records := analyze_images c.vision st.images
      ⟨.success base posts.length records.length (base ++ "/metadata.json")
          (base ++ "/analysis_results.json"),
        true, st.stored, st.images, some records⟩

/-! Spec-side reference definition, for the refinement claim about
carousel precedence. -/

/-- Modelled from the spec: the carousel rule of spec sections 4.2 and
8, "emit a video MediaItem if it has a video URL, else emit an image
MediaItem if it has a display URL, else emit nothing", i.e.
video-url-first precedence. -/
def specItemDecompose (j : Nat) (it : SidecarItem) : List MediaItem :=
  if truthy it.videoUrl then [⟨.video, it.videoUrl.getD "", some j⟩]
  else if truthy it.displayUrl then [⟨.image, it.displayUrl.getD "", some j⟩]
  else []

/-! Concrete fixtures used by witnesses and the end-to-end scenario. -/

/-- Post 1 of the end-to-end scenario: a single image `a.jpg`. -/
def postA : PostDescriptor := ⟨none, some "a.jpg", []⟩

/-- Post 2 of the end-to-end scenario: video `b.mp4` plus a carousel of
an image `c.jpg` and a video `d.mp4`. -/
def postB : PostDescriptor :=
  ⟨some "b.mp4", none, [⟨none, some "c.jpg"⟩, ⟨some "d.mp4", none⟩]⟩

/-- A sample raw vision result. -/
def sampleRaw : RawAnnotations :=
  ⟨[⟨.likely, .veryUnlikely, .unlikely, .possible, (1 : Score)⟩],
    [⟨"Dog", (1 : Score)⟩],
    ⟨.veryUnlikely, .unlikely, .unknown, .veryUnlikely, .possible⟩⟩

/-- Collaborators for the end-to-end scenario: scraping succeeds with
the two posts above, every download succeeds, no post raises, and every
analysis succeeds. -/
def collabOK : Collaborators :=
  { actorCall := .ok "ds1",
    datasetFetch := fun _ => .ok [postA, postB],
    download := fun _ _ => true,
    postRaisesAfter := fun _ => none,
    vision := fun _ => .ok sampleRaw }

/-- Same run, except that analyzing the second collected image raises. -/
def collabVisionFail : Collaborators :=
  { collabOK with
    vision := fun p =>
      if p = "instagram_downloads/user/images/post_2_carousel_1.jpg" then
        .error "vision unavailable"
      else .ok sampleRaw }

/-- Same run, except that every download fails and processing of the
first post raises immediately. -/
def collabRaising : Collaborators :=
  { collabOK with
    download := fun _ _ => false,
    postRaisesAfter := fun i => if i = 1 then some 0 else none }

/-- Collaborators whose scraping actor call raises. -/
def collabActorFail : Collaborators :=
  { collabOK with actorCall := .error "actor failed" }

/-- Collaborators whose dataset retrieval raises. -/
def collabDatasetFail : Collaborators :=
  { collabOK with datasetFetch := fun _ => .error "dataset failed" }

/-- A fetch world whose network always raises a connection error. -/
def netFailWorld : FetchWorld :=
  { net := fun _ => .netError "connection refused",
    write := fun _ _ => .ok () }

/-- A vision oracle that raises for `b.jpg` only. -/
def visionFailB : String → Except String RawAnnotations :=
  fun p => if p = "b.jpg" then .error "boom" else .ok sampleRaw

/-! Supporting lemmas on decimal digit strings. -/

theorem digitVal_digitChar {d : Nat} (h : d < 10) :
    digitVal (digitChar d) = d := by
  interval_cases d <;> decide

theorem isDigit_digitChar {d : Nat} (h : d < 10) :
    (digitChar d).isDigit = true := by
  interval_cases d <;> decide

theorem mem_natDigitsAux_isDigit :
    ∀ fuel n c, c ∈ natDigitsAux fuel n → c.isDigit = true := by
  intro fuel
  induction fuel with
  | zero => intro n c h; simp [natDigitsAux] at h
  | succ f ih =>
    intro n c h
    rw [natDigitsAux] at h
    by_cases h10 : n < 10
    · rw [if_pos h10] at h
      rw [List.mem_singleton] at h
      subst h
      exact isDigit_digitChar h10
    · rw [if_neg h10] at h
      rw [List.mem_append] at h
      rcases h with h | h
      · exact ih _ _ h
      · rw [List.mem_singleton] at h
        subst h
        exact isDigit_digitChar (Nat.mod_lt _ (by norm_num))

theorem foldl_val_natDigitsAux :
    ∀ fuel n, n < fuel → ∀ a : Nat,
      (natDigitsAux fuel n).foldl (fun x c => 10 * x + digitVal c) a =
        a * 10 ^ (natDigitsAux fuel n).length + n := by
  intro fuel
  induction fuel with
  | zero => intro n h; omega
  | succ f ih =>
    intro n h a
    rw [natDigitsAux]
    by_cases h10 : n < 10
    · rw [if_pos h10]
      simp [List.foldl, digitVal_digitChar h10]
      ring
    · rw [if_neg h10]
      have hdiv : n / 10 < f := by
        have := Nat.div_lt_self (by omega : 0 < n) (by norm_num : 1 < 10)
        omega
      rw [List.foldl_append, ih (n / 10) hdiv a]
      have hmod : n % 10 < 10 := Nat.mod_lt _ (by norm_num)
      simp [List.foldl, digitVal_digitChar hmod, List.length_append]
      have hdm : 10 * (n / 10) + n % 10 = n := Nat.div_add_mod n 10
      calc 10 * (a * 10 ^ (natDigitsAux f (n / 10)).length + n / 10) + n % 10
          = a * (10 ^ (natDigitsAux f (n / 10)).length * 10) +
              (10 * (n / 10) + n % 10) := by ring
        _ = a * 10 ^ ((natDigitsAux f (n / 10)).length + 1) + n := by
            rw [hdm, pow_succ]

theorem strVal_natStrData (n : Nat) : strVal (natStrData n) = n := by
  have h := foldl_val_natDigitsAux (n + 1) n (Nat.lt_succ_self n) 0
  simpa [strVal, natStrData] using h

theorem natStrData_injective {m n : Nat} (h : natStrData m = natStrData n) :
    m = n := by
  have hm := strVal_natStrData m
  rw [h, strVal_natStrData] at hm
  exact hm.symm

theorem mem_natStrData_isDigit {n : Nat} {c : Char}
    (h : c ∈ natStrData n) : c.isDigit = true :=
  mem_natDigitsAux_isDigit _ _ _ h

/-- Cancellation of maximal digit prefixes: if two concatenations of an
all-digit block and a block not starting with a digit agree, the blocks
agree. -/
theorem digit_block_cancel (a : List Char) :
    ∀ (b r1 r2 : List Char),
      (∀ c ∈ a, c.isDigit = true) → (∀ c ∈ b, c.isDigit = true) →
      (∀ c, r1.head? = some c → c.isDigit = false) →
      (∀ c, r2.head? = some c → c.isDigit = false) →
      a ++ r1 = b ++ r2 → a = b ∧ r1 = r2 := by
  induction a with
  | nil =>
    intro b r1 r2 _ hb h1 _ heq
    cases b with
    | nil => exact ⟨rfl, heq⟩
    | cons d bt =>
      exfalso
      simp only [List.nil_append, List.cons_append] at heq
      have hd : d.isDigit = true := hb d (by simp)
      have hnd : d.isDigit = false := h1 d (by rw [heq]; rfl)
      rw [hd] at hnd
      exact absurd hnd (by decide)
  | cons x xt ih =>
    intro b r1 r2 ha hb h1 h2 heq
    cases b with
    | nil =>
      exfalso
      simp only [List.nil_append, List.cons_append] at heq
      have hx : x.isDigit = true := ha x (by simp)
      have hnx : x.isDigit = false := h2 x (by rw [← heq]; rfl)
      rw [hx] at hnx
      exact absurd hnx (by decide)
    | cons y yt =>
      simp only [List.cons_append, List.cons.injEq] at heq
      obtain ⟨hxy, htail⟩ := heq
      obtain ⟨hblk, hrest⟩ := ih yt r1 r2 (fun c hc => ha c (by simp [hc]))
        (fun c hc => hb c (by simp [hc])) h1 h2 htail
      exact ⟨by rw [hxy, hblk], hrest⟩

/-! Supporting lemmas on file extensions. -/

theorem lastDotSuffix_head (l : List Char) :
    ∀ s, lastDotSuffix l = some s → ∃ t, s = '.' :: t := by
  induction l with
  | nil => intro s h; simp [lastDotSuffix] at h
  | cons c ct ih =>
    intro s h
    rw [lastDotSuffix] at h
    cases hrec : lastDotSuffix ct with
    | some s' =>
      rw [hrec] at h
      injection h with h'
      rw [← h']
      exact ih s' hrec
    | none =>
      rw [hrec] at h
      by_cases hc : c = '.'
      · rw [if_pos hc] at h
        injection h with h'
        exact ⟨ct, by rw [← h', hc]⟩
      · rw [if_neg hc] at h
        cases h

theorem splitextExt_head (p : List Char) :
    splitextExt p = [] ∨ ∃ t, splitextExt p = '.' :: t := by
  rw [splitextExt]
  cases hrec : lastDotSuffix ((basename p).dropWhile (fun c => c = '.')) with
  | none => left; rfl
  | some s =>
    right
    obtain ⟨t, ht⟩ := lastDotSuffix_head _ s hrec
    exact ⟨t, ht⟩

/-- Every extension the source derives starts with a dot. -/
theorem get_file_extension_head (url : String) :
    ∃ t, (get_file_extension url).data = '.' :: t := by
  rw [get_file_extension]
  rcases splitextExt_head (urlparsePath url.data) with h | ⟨t, h⟩
  · rw [h]
    exact ⟨['j', 'p', 'g'], by decide⟩
  · rw [h]
    refine ⟨t.map Char.toLower, ?_⟩
    have hlow : ('.' :: t).map Char.toLower = '.' :: t.map Char.toLower := by
      simp [Char.toLower]
    rw [hlow]
    rfl

/-! Supporting lemmas for path-planner injectivity. -/

theorem mediaDir_length (k : MediaKind) : (mediaDir k).length = 6 := by
  cases k <;> rfl

theorem mediaDir_inj {k1 k2 : MediaKind} (h : mediaDir k1 = mediaDir k2) :
    k1 = k2 := by
  cases k1 <;> cases k2 <;> first | rfl | exact absurd h (by decide)

theorem ext_head_notDigit (e : String) (he : ∃ t, e.data = '.' :: t) :
    ∀ c, e.data.head? = some c → c.isDigit = false := by
  obtain ⟨t, ht⟩ := he
  intro c hc
  rw [ht] at hc
  injection hc with hc'
  rw [← hc']
  decide

theorem tag_ext_head (j : Option Nat) (e : String)
    (he : ∃ t, e.data = '.' :: t) :
    ∀ c, (carouselTag j ++ e.data).head? = some c → c.isDigit = false := by
  cases j with
  | none =>
    intro c hc
    rw [carouselTag, List.nil_append] at hc
    exact ext_head_notDigit e he c hc
  | some jv =>
    intro c hc
    have h2 : (carouselTag (some jv) ++ e.data).head? = some '_' := by
      rw [carouselTag]
      rfl
    rw [h2] at hc
    injection hc with hc'
    rw [← hc']
    decide

/-- Core injectivity of the planned path in the
(kind, post index, carousel index) triple, for any extensions starting
with a dot. -/
theorem planPathData_inj {username : String} {k1 k2 : MediaKind}
    {i1 i2 : Nat} {j1 j2 : Option Nat} {e1 e2 : String}
    (he1 : ∃ t, e1.data = '.' :: t) (he2 : ∃ t, e2.data = '.' :: t)
    (h : planPathData username k1 i1 j1 e1 =
      planPathData username k2 i2 j2 e2) :
    k1 = k2 ∧ i1 = i2 ∧ j1 = j2 := by
  rw [planPathData, planPathData] at h
  simp only [List.append_assoc] at h
  have h1 := (List.append_inj h rfl).2
  have h2 := (List.append_inj h1 rfl).2
  have h3 := (List.append_inj h2 rfl).2
  obtain ⟨hdir, h4⟩ :=
    List.append_inj h3 (by rw [mediaDir_length, mediaDir_length])
  have hk : k1 = k2 := mediaDir_inj hdir
  have h5 := (List.append_inj h4 rfl).2
  obtain ⟨hdig, hrest⟩ := digit_block_cancel _ _ _ _
    (fun c hc => mem_natStrData_isDigit hc)
    (fun c hc => mem_natStrData_isDigit hc)
    (tag_ext_head j1 e1 he1) (tag_ext_head j2 e2 he2) h5
  have hi : i1 = i2 := natStrData_injective hdig
  have hscore : "_carousel_".data = '_' :: "carousel_".data := rfl
  have hj : j1 = j2 := by
    cases j1 with
    | none =>
      cases j2 with
      | none => rfl
      | some jv =>
        exfalso
        rw [carouselTag, carouselTag, List.nil_append,
          List.append_assoc] at hrest
        obtain ⟨t1, ht1⟩ := he1
        rw [ht1, hscore] at hrest
        injection hrest with hhead
        exact absurd hhead (by decide)
    | some jv1 =>
      cases j2 with
      | none =>
        exfalso
        rw [carouselTag, carouselTag, List.nil_append,
          List.append_assoc] at hrest
        obtain ⟨t2, ht2⟩ := he2
        rw [ht2, hscore] at hrest
        injection hrest with hhead
        exact absurd hhead (by decide)
      | some jv2 =>
        rw [carouselTag, carouselTag, List.append_assoc,
          List.append_assoc] at hrest
        have h6 := (List.append_inj hrest rfl).2
        obtain ⟨hdig2, _⟩ := digit_block_cancel _ _ _ _
          (fun c hc => mem_natStrData_isDigit hc)
          (fun c hc => mem_natStrData_isDigit hc)
          (ext_head_notDigit e1 he1) (ext_head_notDigit e2 he2) h6
        rw [natStrData_injective hdig2]
  exact ⟨hk, hi, hj⟩

/-! Supporting lemmas on truthiness and decomposition. -/

theorem truthy_getD_ne {o : Option String} (h : truthy o = true) :
    o.getD "" ≠ "" := by
  cases o with
  | none => exact absurd h (by decide)
  | some s =>
    intro hs
    rw [Option.getD_some] at hs
    subst hs
    exact absurd h (by decide)

theorem mem_decomposeTop_url_ne {p : PostDescriptor} {m : MediaItem}
    (hm : m ∈ decomposeTop p) : m.url ≠ "" := by
  rw [decomposeTop, List.mem_append] at hm
  rcases hm with hm | hm
  · split at hm
    case isTrue hv =>
      rw [List.mem_singleton] at hm
      subst hm
      exact truthy_getD_ne hv
    case isFalse => simp at hm
  · split at hm
    case isTrue hv =>
      rw [List.mem_singleton] at hm
      subst hm
      exact truthy_getD_ne ((Bool.and_eq_true _ _).mp hv).1
    case isFalse => simp at hm

theorem mem_decomposeItem_url_ne {j : Nat} {it : SidecarItem} {m : MediaItem}
    (hm : m ∈ decomposeItem j it) : m.url ≠ "" := by
  rw [decomposeItem] at hm
  split at hm
  case isTrue hv =>
    rw [List.mem_singleton] at hm
    subst hm
    exact truthy_getD_ne ((Bool.and_eq_true _ _).mp hv).1
  case isFalse =>
    split at hm
    case isTrue hv2 =>
      rw [List.mem_singleton] at hm
      subst hm
      exact truthy_getD_ne hv2
    case isFalse => simp at hm

theorem mem_decomposeCarousel_url_ne :
    ∀ (j : Nat) (items : List SidecarItem) (m : MediaItem),
      m ∈ decomposeCarousel j items → m.url ≠ "" := by
  intro j items
  induction items generalizing j with
  | nil => intro m hm; simp [decomposeCarousel] at hm
  | cons it rest ih =>
    intro m hm
    rw [decomposeCarousel, List.mem_append] at hm
    rcases hm with hm | hm
    · exact mem_decomposeItem_url_ne hm
    · exact ih (j + 1) m hm

/-! Claim theorems on decomposition and path planning. -/

/-- C1: for every post descriptor whose `videoUrl` is truthy, the
top-level processing emits exactly one video media item and never an
image media item, regardless of `displayUrl`. -/
theorem top_level_video_precedence (p : PostDescriptor)
    (h : truthy p.videoUrl = true) :
    decomposeTop p = [⟨MediaKind.video, p.videoUrl.getD "", none⟩] ∧
      ∀ m ∈ decomposeTop p, m.kind ≠ MediaKind.image := by
  have hd : decomposeTop p = [⟨MediaKind.video, p.videoUrl.getD "", none⟩] := by
    rw [decomposeTop, h]
    simp
  refine ⟨hd, ?_⟩
  intro m hm
  rw [hd, List.mem_singleton] at hm
  subst hm
  simp

theorem top_level_video_precedence_witness :
    truthy postB.videoUrl = true ∧
      (decomposeTop postB = [⟨MediaKind.video, "b.mp4", none⟩] ∧
        ∀ m ∈ decomposeTop postB, m.kind ≠ MediaKind.image) :=
  ⟨by decide, top_level_video_precedence postB (by decide)⟩

/-- C2: each carousel item yields at most one media item, and the
display-first `if`/`elif` of the source is exactly the spec's
video-url-first precedence. -/
theorem carousel_item_video_first (j : Nat) (it : SidecarItem) :
    decomposeItem j it = specItemDecompose j it ∧
      (decomposeItem j it).length ≤ 1 := by
  constructor
  · rw [decomposeItem, specItemDecompose]
    cases hv : truthy it.videoUrl <;> cases hdp : truthy it.displayUrl <;>
      simp [hv, hdp]
  · rw [decomposeItem]
    split
    · simp
    · split
      · simp
      · simp

/-- C8: the planned destination paths are injective in the
(post index, carousel index, kind) triple within one username's run,
for extensions derived from any URLs. -/
theorem planPath_injective (username : String) (k1 k2 : MediaKind)
    (i1 i2 : Nat) (j1 j2 : Option Nat) (url1 url2 : String)
    (hi1 : 1 ≤ i1) (hi2 : 1 ≤ i2)
    (hne : (i1, j1, k1) ≠ (i2, j2, k2)) :
    planPath username k1 i1 j1 (get_file_extension url1) ≠
      planPath username k2 i2 j2 (get_file_extension url2) := by
  intro h
  have hd : planPathData username k1 i1 j1 (get_file_extension url1) =
      planPathData username k2 i2 j2 (get_file_extension url2) :=
    congrArg String.data h
  obtain ⟨hk, hi, hj⟩ := planPathData_inj (get_file_extension_head url1)
    (get_file_extension_head url2) hd
  exact hne (by rw [hk, hi, hj])

theorem planPath_injective_witness :
    1 ≤ 1 ∧ 1 ≤ 2 ∧
      ((1 : Nat), (none : Option Nat), MediaKind.image) ≠
        ((2 : Nat), (none : Option Nat), MediaKind.image) ∧
      planPath "user" MediaKind.image 1 none (get_file_extension "a.jpg") ≠
        planPath "user" MediaKind.image 2 none (get_file_extension "a.jpg") :=
  ⟨by decide, by decide, by decide,
    planPath_injective "user" MediaKind.image MediaKind.image 1 2 none none
      "a.jpg" "a.jpg" (by decide) (by decide) (by decide)⟩

/-- C9: a `videoUrl` or `displayUrl` equal to the empty string behaves
exactly like an absent field, and no media item is ever emitted with an
empty URL. -/
theorem empty_string_url_is_absent :
    (∀ d items, decompose ⟨some "", d, items⟩ = decompose ⟨none, d, items⟩) ∧
    (∀ v items, decompose ⟨v, some "", items⟩ = decompose ⟨v, none, items⟩) ∧
    (∀ j d, decomposeItem j ⟨some "", d⟩ = decomposeItem j ⟨none, d⟩) ∧
    (∀ j v, decomposeItem j ⟨v, some ""⟩ = decomposeItem j ⟨v, none⟩) ∧
    (∀ p m, m ∈ decompose p → m.url ≠ "") := by
  refine ⟨?_, ?_, ?_, ?_, ?_⟩
  · intro d items; rfl
  · intro v items; rfl
  · intro j d; rfl
  · intro j v; rfl
  · intro p m hm
    rw [decompose, List.mem_append] at hm
    rcases hm with hm | hm
    · exact mem_decomposeTop_url_ne hm
    · exact mem_decomposeCarousel_url_ne 1 p.sidecarItems m hm

theorem empty_string_url_is_absent_witness :
    ⟨MediaKind.image, "a.jpg", none⟩ ∈ decompose postA ∧
      (MediaItem.mk MediaKind.image "a.jpg" none).url ≠ "" :=
  ⟨by decide,
    empty_string_url_is_absent.2.2.2.2 postA ⟨MediaKind.image, "a.jpg", none⟩
      (by decide)⟩

/-! Supporting lemmas on the annotator and the orchestrator. -/

/-- The annotator emits exactly one record per input path, in input
order: mapping each record to its image path recovers the input. -/
theorem analyze_images_map_path
    (vision : String → Except String RawAnnotations) :
    ∀ paths : List String,
      (analyze_images vision paths).map AnnotationRecord.imagePath = paths := by
  intro paths
  induction paths with
  | nil => rfl
  | cons q rest ih =>
    rw [analyze_images, List.map_cons, ih]
    congr 1
    rw [analyzeOne]
    cases vision q with
    | error e => rfl
    | ok raw => rfl

/-- Which downloads are attempted never depends on the download
outcomes. -/
theorem processPosts_attempts_oracle_free
    (dl1 dl2 : String → String → Bool) (ra : Nat → Option Nat)
    (username : String) :
    ∀ (i : Nat) (posts : List PostDescriptor),
      (processPosts dl1 ra username i posts).attempts =
        (processPosts dl2 ra username i posts).attempts := by
  intro i posts
  induction posts generalizing i with
  | nil => rfl
  | cons p rest ih =>
    calc (processPosts dl1 ra username i (p :: rest)).attempts
        = (processPost dl1 (ra i) username i p).attempts ++
            (processPosts dl1 ra username (i + 1) rest).attempts := rfl
      _ = (processPost dl2 (ra i) username i p).attempts ++
            (processPosts dl2 ra username (i + 1) rest).attempts := by
          rw [ih (i + 1)]
          rfl
      _ = (processPosts dl2 ra username i (p :: rest)).attempts := rfl

/-- On one attempt list, the collected image paths are exactly the
paths of the image-kind stored files. -/
theorem attempts_images_eq_stored (dl : String → String → Bool) :
    ∀ atts : List Attempt,
      (atts.filter
          (fun a => a.kind == MediaKind.image && dl a.url a.savePath)).map
          (fun a => a.savePath) =
        (((atts.filter (fun a => dl a.url a.savePath)).map
            (fun a => (⟨a.savePath, a.kind⟩ : StoredFile))).filter
          (fun f => f.kind == MediaKind.image)).map (fun f => f.path) := by
  intro atts
  induction atts with
  | nil => rfl
  | cons a rest ih =>
    by_cases hdl : dl a.url a.savePath = true <;>
      by_cases hk : (a.kind == MediaKind.image) = true <;>
        simp [List.filter_cons, hdl, hk, ih]

/-- The `downloaded_images` list of one post equals the image-kind
stored paths of that post. -/
theorem processPost_images_eq (dl : String → String → Bool)
    (ra : Option Nat) (username : String) (i : Nat) (p : PostDescriptor) :
    (processPost dl ra username i p).images =
      ((processPost dl ra username i p).stored.filter
        (fun f => f.kind == MediaKind.image)).map (fun f => f.path) := by
  exact attempts_images_eq_stored dl _

/-- The `downloaded_images` list of the whole run equals the image-kind
stored paths of the whole run, in order. -/
theorem processPosts_images_eq (dl : String → String → Bool)
    (ra : Nat → Option Nat) (username : String) :
    ∀ (i : Nat) (posts : List PostDescriptor),
      (processPosts dl ra username i posts).images =
        ((processPosts dl ra username i posts).stored.filter
          (fun f => f.kind == MediaKind.image)).map (fun f => f.path) := by
  intro i posts
  induction posts generalizing i with
  | nil => rfl
  | cons p rest ih =>
    calc (processPosts dl ra username i (p :: rest)).images
        = (processPost dl (ra i) username i p).images ++
            (processPosts dl ra username (i + 1) rest).images := rfl
      _ = ((processPost dl (ra i) username i p).stored.filter
              (fun f => f.kind == MediaKind.image)).map (fun f => f.path) ++
            ((processPosts dl ra username (i + 1) rest).stored.filter
              (fun f => f.kind == MediaKind.image)).map (fun f => f.path) := by
          rw [processPost_images_eq, ih (i + 1)]
      _ = ((processPosts dl ra username i (p :: rest)).stored.filter
            (fun f => f.kind == MediaKind.image)).map (fun f => f.path) := by
          show _ = (((processPost dl (ra i) username i p).stored ++
              (processPosts dl ra username (i + 1) rest).stored).filter
                (fun f => f.kind == MediaKind.image)).map (fun f => f.path)
          rw [List.filter_append, List.map_append]

/-- Shape of a run whose actor call and dataset retrieval both
succeed. -/
theorem scrape_and_analyze_ok (c : Collaborators)
    (username datasetId : String) (posts : List PostDescriptor)
    (ha : c.actorCall = Except.ok datasetId)
    (hd : c.datasetFetch datasetId = Except.ok posts) :
    scrape_and_analyze c username =
      ⟨RunSummary.success ("instagram_downloads/" ++ username) posts.length
          (analyze_images c.vision (processPosts c.download c.postRaisesAfter
            username 1 posts).images).length
          ("instagram_downloads/" ++ username ++ "/metadata.json")
          ("instagram_downloads/" ++ username ++ "/analysis_results.json"),
        true,
        (processPosts c.download c.postRaisesAfter username 1 posts).stored,
        (processPosts c.download c.postRaisesAfter username 1 posts).images,
        some (analyze_images c.vision (processPosts c.download
          c.postRaisesAfter username 1 posts).images)⟩ := by
  simp only [scrape_and_analyze, ha, hd]

/-! Claim theorems on the annotator and the orchestrator. -/

/-- C4: for every oracle and input list, the annotator returns exactly
one record per input path in input order, and a failing image yields an
error record for that image while the batch continues. -/
theorem analyze_images_one_record_each
    (vision : String → Except String RawAnnotations) (paths : List String)
    (p e : String) (hp : p ∈ paths) (he : vision p = Except.error e) :
    ((analyze_images vision paths).map AnnotationRecord.imagePath = paths) ∧
      AnnotationRecord.error p e ∈ analyze_images vision paths := by
  refine ⟨analyze_images_map_path vision paths, ?_⟩
  induction paths with
  | nil => cases hp
  | cons q rest ih =>
    rw [analyze_images, List.mem_cons]
    rcases List.mem_cons.mp hp with hq | hq
    · left
      subst hq
      rw [analyzeOne, he]
    · right
      exact ih hq

theorem analyze_images_one_record_each_witness :
    "b.jpg" ∈ ["a.jpg", "b.jpg", "c.jpg"] ∧
      visionFailB "b.jpg" = Except.error "boom" ∧
      ((analyze_images visionFailB ["a.jpg", "b.jpg", "c.jpg"]).map
          AnnotationRecord.imagePath = ["a.jpg", "b.jpg", "c.jpg"] ∧
        AnnotationRecord.error "b.jpg" "boom" ∈
          analyze_images visionFailB ["a.jpg", "b.jpg", "c.jpg"]) :=
  ⟨by decide, rfl,
    analyze_images_one_record_each visionFailB ["a.jpg", "b.jpg", "c.jpg"]
      "b.jpg" "boom" (by decide) rfl⟩

/-- C6: if the actor invocation or the dataset retrieval raises,
`scrape_and_analyze` returns an error summary carrying the message
instead of raising, with no metadata or analysis output produced. -/
theorem unrecoverable_failure_error_summary (c : Collaborators)
    (username e : String) :
    (c.actorCall = Except.error e →
      scrape_and_analyze c username = ⟨.error e, false, [], [], none⟩) ∧
    (∀ datasetId, c.actorCall = Except.ok datasetId →
      c.datasetFetch datasetId = Except.error e →
      scrape_and_analyze c username = ⟨.error e, false, [], [], none⟩) := by
  constructor
  · intro h
    simp only [scrape_and_analyze, h]
  · intro datasetId h1 h2
    simp only [scrape_and_analyze, h1, h2]

theorem unrecoverable_failure_error_summary_witness :
    (collabActorFail.actorCall = Except.error "actor failed" ∧
      scrape_and_analyze collabActorFail "user" =
        ⟨.error "actor failed", false, [], [], none⟩) ∧
    (collabDatasetFail.actorCall = Except.ok "ds1" ∧
      collabDatasetFail.datasetFetch "ds1" = Except.error "dataset failed" ∧
      scrape_and_analyze collabDatasetFail "user" =
        ⟨.error "dataset failed", false, [], [], none⟩) :=
  ⟨⟨rfl, (unrecoverable_failure_error_summary collabActorFail "user"
      "actor failed").1 rfl⟩,
    ⟨rfl, rfl, (unrecoverable_failure_error_summary collabDatasetFail "user"
      "dataset failed").2 "ds1" rfl rfl⟩⟩

/-- C7: `download_media` returns false, instead of raising, on a
network error, an HTTP error status or a write error; and download
outcomes never change which downloads the orchestrator attempts
afterwards. -/
theorem download_media_failure_isolation (w : FetchWorld)
    (url savePath : String) :
    (∀ msg, w.net url = .netError msg →
      download_media w url savePath = false) ∧
    (∀ status body, w.net url = .response status body → 400 ≤ status →
      status < 600 → download_media w url savePath = false) ∧
    (∀ status body msg, w.net url = .response status body →
      statusRaises status = false → w.write savePath body = .error msg →
      download_media w url savePath = false) ∧
    (∀ (dl1 dl2 : String → String → Bool) (ra : Nat → Option Nat)
      (username : String) (i : Nat) (posts : List PostDescriptor),
      (processPosts dl1 ra username i posts).attempts =
        (processPosts dl2 ra username i posts).attempts) := by
  refine ⟨?_, ?_, ?_, ?_⟩
  · intro msg h
    simp only [download_media, h]
  · intro status body h h4 h6
    have hs : statusRaises status = true := by
      rw [statusRaises]
      simp only [Bool.or_eq_true, Bool.and_eq_true, decide_eq_true_eq]
      omega
    simp only [download_media, h, hs, if_true]
  · intro status body msg h1 hs h2
    simp [download_media, h1, hs, h2]
  · intro dl1 dl2 ra username i posts
    exact processPosts_attempts_oracle_free dl1 dl2 ra username i posts

theorem download_media_failure_isolation_witness :
    netFailWorld.net "http://cdn/x.jpg" = .netError "connection refused" ∧
      download_media netFailWorld "http://cdn/x.jpg"
        "instagram_downloads/user/images/post_1.jpg" = false :=
  ⟨rfl, (download_media_failure_isolation netFailWorld "http://cdn/x.jpg"
      "instagram_downloads/user/images/post_1.jpg").1 "connection refused"
      rfl⟩

/-- C10: whenever the success summary is produced, `posts_processed` is
the length of the full dataset, whatever the download, per-post
exception and vision oracles did. -/
theorem posts_processed_counts_every_post (c : Collaborators)
    (username datasetId : String) (posts : List PostDescriptor)
    (ha : c.actorCall = Except.ok datasetId)
    (hd : c.datasetFetch datasetId = Except.ok posts) :
    ∃ imagesAnalyzed metadataPath analysisPath,
      (scrape_and_analyze c username).summary =
        RunSummary.success ("instagram_downloads/" ++ username) posts.length
          imagesAnalyzed metadataPath analysisPath := by
  refine ⟨(analyze_images c.vision (processPosts c.download c.postRaisesAfter
      username 1 posts).images).length,
    "instagram_downloads/" ++ username ++ "/metadata.json",
    "instagram_downloads/" ++ username ++ "/analysis_results.json", ?_⟩
  rw [scrape_and_analyze_ok c username datasetId posts ha hd]

theorem posts_processed_counts_every_post_witness :
    collabRaising.actorCall = Except.ok "ds1" ∧
      collabRaising.datasetFetch "ds1" = Except.ok [postA, postB] ∧
      ∃ imagesAnalyzed metadataPath analysisPath,
        (scrape_and_analyze collabRaising "user").summary =
          RunSummary.success "instagram_downloads/user" 2
            imagesAnalyzed metadataPath analysisPath :=
  ⟨rfl, rfl,
    posts_processed_counts_every_post collabRaising "user" "ds1"
      [postA, postB] rfl rfl⟩

/-- C5: in every run that reaches annotation, the persisted records
correspond one to one, in order, to the successfully downloaded image
files (so videos never produce records), `images_analyzed` equals the
record count, and the status is success even if single analyses fail. -/
theorem stored_images_annotated_once (c : Collaborators)
    (username datasetId : String) (posts : List PostDescriptor)
    (ha : c.actorCall = Except.ok datasetId)
    (hd : c.datasetFetch datasetId = Except.ok posts) :
    ∃ records,
      (scrape_and_analyze c username).analysisSaved = some records ∧
      records.map AnnotationRecord.imagePath =
        (((scrape_and_analyze c username).storedFiles.filter
          (fun f => f.kind == MediaKind.image)).map (fun f => f.path)) ∧
      (scrape_and_analyze c username).summary =
        RunSummary.success ("instagram_downloads/" ++ username) posts.length
          records.length
          ("instagram_downloads/" ++ username ++ "/metadata.json")
          ("instagram_downloads/" ++ username ++ "/analysis_results.json") := by
  rw [scrape_and_analyze_ok c username datasetId posts ha hd]
  refine ⟨analyze_images c.vision (processPosts c.download c.postRaisesAfter
    username 1 posts).images, rfl, ?_, rfl⟩
  rw [analyze_images_map_path]
  exact processPosts_images_eq c.download c.postRaisesAfter username 1 posts

theorem stored_images_annotated_once_witness :
    collabVisionFail.actorCall = Except.ok "ds1" ∧
      collabVisionFail.datasetFetch "ds1" = Except.ok [postA, postB] ∧
      ∃ records,
        (scrape_and_analyze collabVisionFail "user").analysisSaved =
          some records ∧
        records.map AnnotationRecord.imagePath =
          (((scrape_and_analyze collabVisionFail "user").storedFiles.filter
            (fun f => f.kind == MediaKind.image)).map (fun f => f.path)) ∧
        (scrape_and_analyze collabVisionFail "user").summary =
          RunSummary.success "instagram_downloads/user" 2 records.length
            "instagram_downloads/user/metadata.json"
            "instagram_downloads/user/analysis_results.json" :=
  ⟨rfl, rfl,
    stored_images_annotated_once collabVisionFail "user" "ds1"
      [postA, postB] rfl rfl⟩

/-- C3: end-to-end scenario: post 1 is the image `a.jpg`, post 2 is the
video `b.mp4` with carousel items `c.jpg` and `d.mp4`; with every
download succeeding, exactly the four expected files are stored in
order, the annotation input is the two image paths in download order,
and exactly two records are persisted in that order. -/
theorem end_to_end_scenario :
    (scrape_and_analyze collabOK "user").storedFiles =
        [⟨"instagram_downloads/user/images/post_1.jpg", .image⟩,
          ⟨"instagram_downloads/user/videos/post_2.mp4", .video⟩,
          ⟨"instagram_downloads/user/images/post_2_carousel_1.jpg", .image⟩,
          ⟨"instagram_downloads/user/videos/post_2_carousel_2.mp4", .video⟩] ∧
      (scrape_and_analyze collabOK "user").annotationInput =
        ["instagram_downloads/user/images/post_1.jpg",
          "instagram_downloads/user/images/post_2_carousel_1.jpg"] ∧
      ((scrape_and_analyze collabOK "user").analysisSaved.map
          (fun records => records.map AnnotationRecord.imagePath)) =
        some ["instagram_downloads/user/images/post_1.jpg",
          "instagram_downloads/user/images/post_2_carousel_1.jpg"] ∧
      ((scrape_and_analyze collabOK "user").analysisSaved.map
        List.length) = some 2 := by
  refine ⟨?_, ?_, ?_, ?_⟩ <;> decide

end InstaScraper
